import Mathlib

set_option maxRecDepth 10000

/-!
Shallow embedding of the MQA retrieval chatbot (src/chat.py, src/app.py).

Strings are modelled as Lean `String` (lists of characters); the Python string
builtins used by the code (`replace`, `strip`, `lower`, `in`, `title`,
`startswith`, `os.path.basename`) are embedded below, faithful to CPython
semantics on the inputs the code produces.  Recursive scanners use an explicit
fuel argument equal to the input length, which is always sufficient because
every step consumes at least one character.
-/

namespace MqaChat

/-- The apostrophe character, written via its code point. -/
def apostrophe : Char := Char.ofNat 39

/-- One-character string holding an apostrophe. -/
def apostropheS : String := ⟨[apostrophe]⟩

/-- Python `str.strip()` whitespace set (ASCII part, which is all that occurs here). -/
def pyIsSpace (c : Char) : Bool :=
  c == ' ' || c == '\t' || c == '\n' || c == '\r' || c == Char.ofNat 11 || c == Char.ofNat 12

/-- Python `str.strip()`: drop whitespace from both ends. -/
def pyStrip (s : String) : String :=
  ⟨((s.data.dropWhile pyIsSpace).reverse.dropWhile pyIsSpace).reverse⟩

/-- Python `str.lower()` (ASCII; the strings involved are ASCII). -/
def pyLower (s : String) : String := ⟨s.data.map Char.toLower⟩

/-- Python substring membership `sub in s` on character lists. -/
def listContainsSub (sub : List Char) : List Char → Bool
  | [] => sub.isEmpty
  | c :: rest => sub.isPrefixOf (c :: rest) || listContainsSub sub rest

/-- Python substring membership `sub in s`. -/
def strContains (s sub : String) : Bool := listContainsSub sub.data s.data

/-- Core of Python `str.replace` for a non-empty needle: scan left to right,
replacing non-overlapping occurrences; replacement text is not rescanned.
Fuel is the length of the remaining input. -/
def pyReplaceFuel (needle repl : List Char) : Nat → List Char → List Char
  | _, [] => []
  | 0, s => s
  | fuel + 1, c :: rest =>
    if needle.isPrefixOf (c :: rest) then
      repl ++ pyReplaceFuel needle repl fuel ((c :: rest).drop needle.length)
    else
      c :: pyReplaceFuel needle repl fuel rest

/-- Python `s.replace(needle, repl)` (all occurrences).  For an empty needle
CPython inserts the replacement at every character boundary. -/
def pyReplace (s needle repl : String) : String :=
  if needle.data.isEmpty then
    ⟨repl.data ++ s.data.flatMap (fun c => c :: repl.data)⟩
  else
    ⟨pyReplaceFuel needle.data repl.data s.data.length s.data⟩

/-- Python `os.path.basename`: the part after the last slash. -/
def basename (s : String) : String :=
  ⟨(s.data.reverse.takeWhile (fun c => !(c == '/'))).reverse⟩

/-- Core of Python `str.title()` (ASCII): the flag records whether the previous
character was alphabetic. -/
def pyTitleAux : Bool → List Char → List Char
  | _, [] => []
  | prevAlpha, c :: rest =>
    if c.isAlpha then
      (if prevAlpha then c.toLower else c.toUpper) :: pyTitleAux true rest
    else
      c :: pyTitleAux false rest

/-- Python `str.title()` (ASCII inputs). -/
def pyTitle (s : String) : String := ⟨pyTitleAux false s.data⟩

/-! ## URL detection (the regex in `ChatBot._format_response`)

The pattern is an alternation of `http://`, `https://` or `www.` followed by
one or more characters outside the class: whitespace, angle brackets, double
quote, single quote, closing parenthesis.  `re.findall` returns the leftmost
non-overlapping maximal matches, scanning left to right. -/

/-- Characters allowed inside a detected URL (the negated class of the regex). -/
def urlChar (c : Char) : Bool :=
  !(pyIsSpace c) && !(c == '<') && !(c == '>') && !(c == '"') &&
    !(c == apostrophe) && !(c == ')')

/-- Whether a string is a prefix of the character list. -/
def isPfxL (p : String) (s : List Char) : Bool := p.data.isPrefixOf s

/-- Try to match one alternative of the URL regex at the current position:
the literal prefix followed by a maximal non-empty run of `urlChar`s.
Returns the match and the rest of the input. -/
def tryMatchAt (pfx : String) (s : List Char) : Option (List Char × List Char) :=
  if isPfxL pfx s then
    if ((s.drop pfx.length).takeWhile urlChar).isEmpty then none
    else some (pfx.data ++ (s.drop pfx.length).takeWhile urlChar,
               (s.drop pfx.length).dropWhile urlChar)
  else none

/-- Try the three regex alternatives at the current position. -/
def tryMatchUrl (s : List Char) : Option (List Char × List Char) :=
  match tryMatchAt "http://" s with
  | some r => some r
  | none =>
    match tryMatchAt "https://" s with
    | some r => some r
    | none => tryMatchAt "www." s

/-- `re.findall` scan: at each position try to match; on success emit the match
and continue after it, otherwise advance one character. -/
def findUrlsFuel : Nat → List Char → List (List Char)
  | 0, _ => []
  | _ + 1, [] => []
  | fuel + 1, c :: rest =>
    match tryMatchUrl (c :: rest) with
    | some (url, rem) => url :: findUrlsFuel fuel rem
    | none => findUrlsFuel fuel rest

/-- `re.findall(url_pattern, s)` of `_format_response`. -/
def findUrls (s : String) : List String :=
  (findUrlsFuel s.data.length s.data).map (fun l => ⟨l⟩)

/-! ## `urllib.parse` model (`urlparse`, `quote`, `urlunparse`)

These stdlib functions are embedded at the fidelity the code exercises:
absolute URLs (the code prepends `https://` when no scheme is present). -/

/-- Characters CPython accepts in a scheme after the first position. -/
def schemeChar (c : Char) : Bool := c.isAlphanum || c == '+' || c == '-' || c == '.'

/-- Split a character list at the first occurrence of `ch`; `none` when absent. -/
def splitAtFirst (ch : Char) (l : List Char) : Option (List Char × List Char) :=
  if l.contains ch then
    some (l.takeWhile (fun c => !(c == ch)), (l.dropWhile (fun c => !(c == ch))).drop 1)
  else none

/-- The parse result of `urllib.parse.urlparse`. -/
structure ParsedUrl where
  scheme : String
  netloc : String
  path : String
  params : String
  query : String
  fragment : String
deriving DecidableEq, Repr

/-- `_splitparams` of `urllib.parse.urlparse`: split `path;params`, looking for
the first semicolon within the last slash-separated segment. -/
def splitParams (p : List Char) : List Char × List Char :=
  if p.contains '/' then
    let lastSeg := (p.reverse.takeWhile (fun c => !(c == '/'))).reverse
    let before := p.take (p.length - lastSeg.length)
    match splitAtFirst ';' lastSeg with
    | some (b, a) => (before ++ b, a)
    | none => (p, [])
  else
    match splitAtFirst ';' p with
    | some (b, a) => (b, a)
    | none => (p, [])

/-- Model of `urllib.parse.urlparse`.  `none` models the `ValueError` CPython
raises on a netloc with unbalanced square brackets (caught by the caller). -/
def urlparseModel (url : String) : Option ParsedUrl :=
  let (scheme, rest1) :=
    match splitAtFirst ':' url.data with
    | some (before, after) =>
      if !before.isEmpty && before.all schemeChar then (before.map Char.toLower, after)
      else ([], url.data)
    | none => ([], url.data)
  let notDelim : Char → Bool := fun c => !(c == '/') && !(c == '?') && !(c == '#')
  let (netloc, rest2) :=
    if rest1.take 2 = ['/', '/'] then
      ((rest1.drop 2).takeWhile notDelim, (rest1.drop 2).dropWhile notDelim)
    else ([], rest1)
  if (netloc.contains '[' && !(netloc.contains ']')) ||
     (netloc.contains ']' && !(netloc.contains '[')) then none
  else
    let (rest3, fragment) :=
      match splitAtFirst '#' rest2 with
      | some (b, a) => (b, a)
      | none => (rest2, [])
    let (rest4, query) :=
      match splitAtFirst '?' rest3 with
      | some (b, a) => (b, a)
      | none => (rest3, [])
    let (path, params) := if rest4.contains ';' then splitParams rest4 else (rest4, [])
    some ⟨⟨scheme⟩, ⟨netloc⟩, ⟨path⟩, ⟨params⟩, ⟨query⟩, ⟨fragment⟩⟩

/-- Uppercase hexadecimal digit of a value below 16. -/
def hexDigit (n : Nat) : Char :=
  if n < 10 then Char.ofNat (48 + n) else Char.ofNat (55 + n)

/-- UTF-8 encoding of one character, as byte values. -/
def utf8Bytes (c : Char) : List Nat :=
  let n := c.toNat
  if n < 128 then [n]
  else if n < 2048 then [192 + n / 64, 128 + n % 64]
  else if n < 65536 then [224 + n / 4096, 128 + (n / 64) % 64, 128 + n % 64]
  else [240 + n / 262144, 128 + (n / 4096) % 64, 128 + (n / 64) % 64, 128 + n % 64]

/-- Characters `urllib.parse.quote` leaves unescaped with the default
`safe="/"`: ASCII alphanumerics, `_.-~` and the slash. -/
def quoteSafeChar (c : Char) : Bool :=
  c.isAlphanum || c == '_' || c == '.' || c == '-' || c == '~' || c == '/'

/-- `urllib.parse.quote(s)` with the default safe characters. -/
def pyQuote (s : String) : String :=
  ⟨s.data.flatMap fun c =>
    if quoteSafeChar c then [c]
    else (utf8Bytes c).flatMap fun b => ['%', hexDigit (b / 16), hexDigit (b % 16)]⟩

/-- `urllib.parse.urlunparse` (via `urlunsplit`), fields already encoded. -/
def urlunparseModel (p : ParsedUrl) : String :=
  let path := if p.params ≠ "" then p.path ++ ";" ++ p.params else p.path
  let url :=
    if p.netloc ≠ "" ∨ path.data.take 2 = ['/', '/'] then
      "//" ++ p.netloc ++
        (if path ≠ "" ∧ path.data.head? ≠ some '/' then "/" ++ path else path)
    else path
  let url := if p.scheme ≠ "" then p.scheme ++ ":" ++ url else url
  let url := if p.query ≠ "" then url ++ "?" ++ p.query else url
  if p.fragment ≠ "" then url ++ "#" ++ p.fragment else url

/-- Python `s.startswith(pfx)`. -/
def startsWithStr (pfx s : String) : Bool := pfx.data.isPrefixOf s.data

/-- `ChatBot._sanitize_url`: ensure a scheme, parse, reject URLs without a
host, percent-encode the components and reassemble. -/
def sanitizeUrl (url : String) : Option String :=
  if url == "" then none
  else
    let url :=
      if startsWithStr "http://" url || startsWithStr "https://" url then url
      else "https://" ++ url
    match urlparseModel url with
    | none => none
    | some p =>
      if p.netloc == "" then none
      else
        some (urlunparseModel
          ⟨p.scheme, p.netloc, pyQuote p.path, pyQuote p.params,
           pyQuote p.query, pyQuote p.fragment⟩)

/-! ## Response post-processor (`ChatBot._format_response`) -/

/-- The fixed message returned for an empty or missing answer. -/
def noAnswerMsg : String := "No answer generated. Please try again."

/-- The anchor markup built for a sanitized URL; the visible text is the
original URL string. -/
def linkHtml (sanitized original : String) : String :=
  "<a href=\"" ++ sanitized ++
    "\" target=\"_blank\" rel=\"noopener noreferrer\" style=\"color: #1a3e8c; text-decoration: underline; font-weight: 600;\">" ++
    original ++ "</a>"

/-- The placeholder substituted for the i-th detected URL. -/
def mkPlaceholder (i : Nat) : String := "__URL_PLACEHOLDER_" ++ toString i ++ "__"

/-- What a placeholder is replaced with at restore time: the anchor markup when
the URL sanitizes, otherwise the original URL as plain text. -/
def restoreRepl (url : String) : String :=
  match sanitizeUrl url with
  | some su => linkHtml su url
  | none => url

/-- Main body of `_format_response` for a non-empty answer: substitute
placeholders for the detected URLs, convert line breaks, add paragraph breaks
before connective words, then restore each placeholder as an anchor (or as
plain text when the URL does not sanitize). -/
def formatBody (a : String) : String :=
  let pairs := (findUrls a).enum
  let withPlaceholders :=
    pairs.foldl (fun acc p => pyReplace acc p.2 (mkPlaceholder p.1)) a
  let f1 := pyReplace withPlaceholders "\n" "<br>"
  let f2 := pyReplace f1 "Additionally," "<br><br>Additionally,"
  let f3 := pyReplace f2 "Furthermore," "<br><br>Furthermore,"
  let f4 := pyReplace f3 "Moreover," "<br><br>Moreover,"
  let f5 := pyReplace f4 "However," "<br><br>However,"
  pairs.foldl (fun acc p => pyReplace acc (mkPlaceholder p.1) (restoreRepl p.2)) f5

/-- `ChatBot._format_response`: `none` models a `None` argument, which Python
treats like the empty string (`if not answer`). -/
def formatResponse (answer : Option String) : String :=
  match answer with
  | none => noAnswerMsg
  | some a => if a == "" then noAnswerMsg else formatBody a

/-! ## Fallback policy (`ChatBot._get_fallback_answer`) -/

/-- Association-list lookup with Python dict key semantics. -/
def dictLookup {α : Type} : List (String × α) → String → Option α
  | [], _ => none
  | (k, v) :: rest, key => if k = key then some v else dictLookup rest key

/-- Python dict assignment `d[k] = v`: update in place when the key exists,
otherwise append (dicts preserve insertion order). -/
def dictSet {α : Type} : List (String × α) → String → α → List (String × α)
  | [], key, v => [(key, v)]
  | (k, w) :: rest, key, v =>
    if k = key then (k, v) :: rest else (k, w) :: dictSet rest key v

/-- The `fallback_responses` dictionary of `_get_fallback_answer`. -/
def fallbackResponses : List (String × String) :=
  [("accreditation", "For accreditation inquiries, please visit the MQA accreditation portal or contact accreditation@mqa.gov.my. You can find more information at https://www.mqa.gov.my."),
   ("framework", "The Malaysian Qualifications Framework (MQF) is available on the official MQA website. Visit https://www.mqa.gov.my for detailed information about MQF levels and standards."),
   ("qualifications", "For qualification standards and program development guidelines, please refer to the MQF handbook available at https://www.mqa.gov.my or contact qualifications@mqa.gov.my."),
   ("recognition", "For recognition of qualifications, please contact recognition@mqa.gov.my or visit https://www.mqa.gov.my/recognition for application procedures."),
   ("equivalency", "For qualification equivalency assessments, please visit https://www.mqa.gov.my/equivalency or contact equivalency@mqa.gov.my."),
   ("apel", "For APEL (Accreditation of Prior Experiential Learning) inquiries, please visit https://www.mqa.gov.my/apel or contact apel@mqa.gov.my."),
   ("faq", "For frequently asked questions, please check the MQA FAQ section at https://www.mqa.gov.my/faq or contact enquiry@mqa.gov.my for specific inquiries.")]

/-- The default fallback for a category without a canned entry. -/
def genericFallback : String :=
  "I apologize, but I" ++ apostropheS ++
    "m having trouble accessing the specific information right now. Please contact MQA directly at enquiry@mqa.gov.my or visit https://www.mqa.gov.my for assistance."

/-- `ChatBot._get_fallback_answer` (the query argument is unused, as in the
source). -/
def getFallbackAnswer (query cat : String) : String :=
  (dictLookup fallbackResponses cat).getD genericFallback

/-! ## Chat orchestrator (`ChatBot.chat`) -/

/-- Metadata of a retrieved source document. -/
structure DocMeta where
  source : Option String
  page : Option Nat
deriving DecidableEq, Repr

/-- A document returned by the retrieval chain; `metadata = none` models an
object without a `metadata` attribute. -/
structure Doc where
  metadata : Option DocMeta
deriving DecidableEq, Repr

/-- The dictionary returned by `qa_chain.invoke`: the `answer` key (absent
modelled as `none`) and the `source_documents` list. -/
structure ChainResult where
  answer : Option String
  source_documents : List Doc

/-- A retrieval chain: maps the formatted question to a result, or raises
(modelled as `Except.error` carrying the exception text). -/
def Chain : Type := String → Except String ChainResult

/-- The orchestrator state: the `databases` and `qa_chains` dicts, with
`Store` the abstract type of loaded vector stores. -/
structure BotState (Store : Type) where
  databases : List (String × Option Store)
  qaChains : List (String × Option Chain)

/-- Python `d.get(k)`: `none` when the key is absent or maps to `None`. -/
def dictGet {α : Type} (d : List (String × Option α)) (k : String) : Option α :=
  match dictLookup d k with
  | some v => v
  | none => none

/-- The result dictionary of `ChatBot.chat`. -/
structure QueryResult where
  answer : String
  sources : List String
deriving DecidableEq, Repr

/-- The guidance message for a missing or unknown category. -/
def guidanceMsg : String := "Please select a valid category first from the available options."

/-- The message returned when the vector store for the category is not loaded. -/
def dbUnavailableMsg (cat : String) : String :=
  "Database not available for " ++ cat ++ ". Please try another category."

/-- The composite question sent to the chain. -/
def mkFormattedQuery (cat query : String) : String :=
  "Regarding MQA " ++ pyTitle (pyReplace cat "_" " ") ++ ": " ++ query

/-- Source-citation extraction from `source_documents` (docs lacking a
`metadata` attribute are skipped). -/
def extractSources (docs : List Doc) : List String :=
  docs.filterMap fun d =>
    d.metadata.map fun m =>
      let sourceName := basename (m.source.getD "Unknown Document")
      let pageInfo :=
        match m.page with
        | some p => if p ≠ 0 then "Page " ++ toString p else ""
        | none => ""
      pyStrip (sourceName ++ " " ++ pageInfo)

/-- First uncertainty phrase checked by `chat` (mixed case, as in the source). -/
def uncertainNeedle1 : String := "I don" ++ apostropheS ++ "t know"

/-- Second uncertainty phrase checked by `chat` (mixed case, as in the source). -/
def uncertainNeedle2 : String := "I cannot"

/-- The low-confidence test of `chat`: empty, whitespace-only, or the two
mixed-case phrases searched inside the lowercased answer (as in the source). -/
def lowConfidence (answer : String) : Bool :=
  answer == "" || pyStrip answer == "" ||
    strContains (pyLower answer) uncertainNeedle1 ||
    strContains (pyLower answer) uncertainNeedle2

/-- `ChatBot.chat`: validate the category, dispatch on store and chain
availability, invoke the chain, extract sources, apply the low-confidence
fallback or the post-processor.  A raising chain is the `Except.error` case. -/
def chat {Store : Type} (bot : BotState Store) (query : String)
    (category : Option String) : QueryResult :=
  match category with
  | none => ⟨guidanceMsg, []⟩
  | some cat =>
    if cat == "" || (dictLookup bot.databases cat).isNone then ⟨guidanceMsg, []⟩
    else
      match dictGet bot.databases cat with
      | none => ⟨dbUnavailableMsg cat, []⟩
      | some _ =>
        match dictGet bot.qaChains cat with
        | none => ⟨getFallbackAnswer query cat, []⟩
        | some chain =>
          match chain (mkFormattedQuery cat query) with
          | .error _ => ⟨getFallbackAnswer query cat, []⟩
          | .ok result =>
            let sources := extractSources result.source_documents
            let answer := result.answer.getD noAnswerMsg
            if lowConfidence answer then ⟨getFallbackAnswer query cat, sources⟩
            else ⟨formatResponse (some answer), sources⟩

/-! ## Startup initialization (`ChatBot.__init__`, `_initialize_databases`,
`_initialize_qa_chain`)

Each external effect that can fail is an `Except` field of the per-category
environment; `Except.error` carries the exception text. -/

/-- The fixed category registry (the keys of `self.databases`). -/
def categories : List String :=
  ["accreditation", "framework", "qualifications", "recognition", "equivalency",
   "apel", "faq"]

/-- The external outcomes initialization can observe for one category. -/
structure CatEnv (Store : Type) where
  pathExists : Bool
  loadStore : Except String Store
  getDocs : Except String Nat
  llmInit : Except String Unit
  llmProbe : Except String Unit
  buildChain : Except String Chain

/-- `ChatBot._initialize_qa_chain`: construct the LLM, probe it, build the
chain; every failure is caught and yields `None`. -/
def initQaChain {Store : Type} (e : CatEnv Store) : Option Chain :=
  match e.llmInit with
  | .error _ => none
  | .ok _ =>
    match e.llmProbe with
    | .error _ => none
    | .ok _ =>
      match e.buildChain with
      | .error _ => none
      | .ok ch => some ch

/-- The net effect of one iteration of `_initialize_databases` on one
category: the final store slot and chain slot. -/
def initCategory {Store : Type} (e : CatEnv Store) : Option Store × Option Chain :=
  if e.pathExists then
    match e.loadStore with
    | .error _ => (none, none)
    | .ok store =>
      match e.getDocs with
      | .error _ => (none, none)
      | .ok docCount =>
        if 0 < docCount then (some store, initQaChain e) else (some store, none)
  else (none, none)

/-- One loop iteration of `_initialize_databases`: assign that category entry in
entries in both dicts. -/
def initStep {Store : Type} (env : String → CatEnv Store)
    (acc : List (String × Option Store) × List (String × Option Chain))
    (c : String) : List (String × Option Store) × List (String × Option Chain) :=
  (dictSet acc.1 c (initCategory (env c)).1, dictSet acc.2 c (initCategory (env c)).2)

/-- `_initialize_databases`: `self.databases` starts with every category mapped
to `None`, `self.qa_chains` starts empty; the loop runs over the registry. -/
def initializeDatabases {Store : Type} (env : String → CatEnv Store) :
    List (String × Option Store) × List (String × Option Chain) :=
  categories.foldl (initStep env) (categories.map (fun c => (c, none)), [])

/-- The orchestrator state right after `ChatBot.__init__`. -/
def mkBot {Store : Type} (env : String → CatEnv Store) : BotState Store :=
  ⟨(initializeDatabases env).1, (initializeDatabases env).2⟩

/-! ## Endpoint (`predict` in src/app.py) -/

/-- The parsed JSON body: each field is present or absent. -/
structure ReqData where
  message : Option String
  category : Option String

/-- The JSON response of `predict`: `sources` is absent on the error paths. -/
structure PredictResponse where
  error : Option String
  answer : String
  sources : Option (List String)
deriving DecidableEq, Repr

/-- `predict`: validate body, message and category in order, then delegate to
`chat` and wrap its result. -/
def predict {Store : Type} (bot : BotState Store) (data : Option ReqData) :
    PredictResponse :=
  match data with
  | none => ⟨some "No data received", "Please provide a valid query.", none⟩
  | some d =>
    let message := d.message.getD ""
    if pyStrip message == "" then
      ⟨some "Empty message", "Please provide a question or message.", none⟩
    else
      match d.category with
      | none => ⟨some "Category not specified", "Please select a category first.", none⟩
      | some cat =>
        if cat == "" then
          ⟨some "Category not specified", "Please select a category first.", none⟩
        else
          let response := chat bot message (some cat)
          ⟨none, response.answer, some response.sources⟩

/-! ## Helper lemmas -/

theorem length_mk (l : List Char) : (String.mk l).length = l.length := rfl

theorem length_pos_of_ne_empty (s : String) (h : s ≠ "") : 0 < s.length := by
  obtain ⟨l⟩ := s
  cases l with
  | nil => exact absurd rfl h
  | cons c rest => simp [length_mk]

theorem append_length_pos_left (s t : String) (h : 0 < s.length) :
    0 < (s ++ t).length := by
  rw [String.length_append]; omega

theorem mkPlaceholder_length_pos (i : Nat) : 0 < (mkPlaceholder i).length := by
  unfold mkPlaceholder
  apply append_length_pos_left
  apply append_length_pos_left
  decide

theorem linkHtml_length_pos (su u : String) : 0 < (linkHtml su u).length := by
  unfold linkHtml
  apply append_length_pos_left
  apply append_length_pos_left
  apply append_length_pos_left
  apply append_length_pos_left
  decide

theorem restoreRepl_length_pos (u : String) (hu : 0 < u.length) :
    0 < (restoreRepl u).length := by
  unfold restoreRepl
  split
  · exact linkHtml_length_pos _ _
  · exact hu

theorem pyReplace_length_pos (s needle repl : String) (hs : 0 < s.length)
    (hr : 0 < repl.length) : 0 < (pyReplace s needle repl).length := by
  obtain ⟨l⟩ := s
  rw [length_mk] at hs
  unfold pyReplace
  split
  · rw [length_mk, List.length_append]
    have : 0 < repl.data.length := hr
    omega
  · rw [length_mk]
    show 0 < (pyReplaceFuel needle.data repl.data l.length l).length
    cases l with
    | nil => simp at hs
    | cons c rest =>
      rw [List.length_cons]
      simp only [pyReplaceFuel]
      split
      · rw [List.length_append]
        have : 0 < repl.data.length := hr
        omega
      · simp

theorem foldl_placeholder_length_pos :
    ∀ (l : List (Nat × String)) (s : String), 0 < s.length →
      0 < (l.foldl (fun acc p => pyReplace acc p.2 (mkPlaceholder p.1)) s).length := by
  intro l
  induction l with
  | nil => intro s hs; exact hs
  | cons a rest ih =>
    intro s hs
    rw [List.foldl_cons]
    exact ih _ (pyReplace_length_pos _ _ _ hs (mkPlaceholder_length_pos a.1))

theorem foldl_restore_length_pos :
    ∀ (l : List (Nat × String)) (s : String),
      (∀ p ∈ l, 0 < (restoreRepl p.2).length) → 0 < s.length →
      0 < (l.foldl (fun acc p => pyReplace acc (mkPlaceholder p.1) (restoreRepl p.2)) s).length := by
  intro l
  induction l with
  | nil => intro s _ hs; exact hs
  | cons a rest ih =>
    intro s h hs
    rw [List.foldl_cons]
    exact ih _ (fun p hp => h p (List.mem_cons_of_mem _ hp))
      (pyReplace_length_pos _ _ _ hs (h a (List.mem_cons_self _ _)))

theorem tryMatchAt_ne_nil (pfx : String) (hp : pfx.data ≠ []) (s url rem : List Char)
    (h : tryMatchAt pfx s = some (url, rem)) : url ≠ [] := by
  unfold tryMatchAt at h
  split at h
  · split at h
    · exact absurd h (by simp)
    · injection h with h1
      rw [Prod.mk.injEq] at h1
      obtain ⟨h2, -⟩ := h1
      rw [← h2]
      intro hcontra
      exact hp (List.append_eq_nil.mp hcontra).1
  · exact absurd h (by simp)

theorem tryMatchUrl_ne_nil (s url rem : List Char)
    (h : tryMatchUrl s = some (url, rem)) : url ≠ [] := by
  unfold tryMatchUrl at h
  split at h
  next r heq =>
    injection h with h1
    rw [h1] at heq
    exact tryMatchAt_ne_nil "http://" (by decide) s url rem heq
  next =>
    split at h
    next r heq =>
      injection h with h1
      rw [h1] at heq
      exact tryMatchAt_ne_nil "https://" (by decide) s url rem heq
    next =>
      exact tryMatchAt_ne_nil "www." (by decide) s url rem h

theorem findUrlsFuel_ne_nil :
    ∀ (fuel : Nat) (s : List Char) (u : List Char), u ∈ findUrlsFuel fuel s → u ≠ [] := by
  intro fuel
  induction fuel with
  | zero => intro s u h; simp [findUrlsFuel] at h
  | succ n ih =>
    intro s u h
    cases s with
    | nil => simp [findUrlsFuel] at h
    | cons c rest =>
      rw [findUrlsFuel] at h
      rcases hm : tryMatchUrl (c :: rest) with _ | ⟨url, rem⟩
      · rw [hm] at h
        exact ih rest u h
      · rw [hm] at h
        rcases List.mem_cons.mp h with rfl | h2
        · exact tryMatchUrl_ne_nil _ _ _ hm
        · exact ih rem u h2

theorem findUrls_length_pos (s : String) (u : String) (h : u ∈ findUrls s) :
    0 < u.length := by
  unfold findUrls at h
  rcases List.mem_map.mp h with ⟨l, hl, rfl⟩
  rw [length_mk]
  exact List.length_pos.mpr (findUrlsFuel_ne_nil _ _ _ hl)

theorem snd_mem_of_mem_enumFrom {α : Type} :
    ∀ (l : List α) (n : Nat) (p : Nat × α), p ∈ l.enumFrom n → p.2 ∈ l := by
  intro l
  induction l with
  | nil => intro n p h; simp [List.enumFrom] at h
  | cons a rest ih =>
    intro n p h
    rw [List.enumFrom] at h
    rcases List.mem_cons.mp h with rfl | h2
    · exact List.mem_cons_self _ _
    · exact List.mem_cons_of_mem _ (ih (n + 1) p h2)

theorem formatBody_length_pos (a : String) (ha : a ≠ "") :
    0 < (formatBody a).length := by
  unfold formatBody
  apply foldl_restore_length_pos
  · intro p hp
    apply restoreRepl_length_pos
    exact findUrls_length_pos a p.2 (snd_mem_of_mem_enumFrom _ 0 p hp)
  · refine pyReplace_length_pos _ _ _ ?_ (by decide)
    refine pyReplace_length_pos _ _ _ ?_ (by decide)
    refine pyReplace_length_pos _ _ _ ?_ (by decide)
    refine pyReplace_length_pos _ _ _ ?_ (by decide)
    refine pyReplace_length_pos _ _ _ ?_ (by decide)
    exact foldl_placeholder_length_pos _ _ (length_pos_of_ne_empty a ha)

theorem formatResponse_length_pos (a : String) (ha : a ≠ "") :
    0 < (formatResponse (some a)).length := by
  have hbeq : (a == "") = false := beq_eq_false_iff_ne.mpr ha
  simp only [formatResponse, hbeq, Bool.false_eq_true, if_false]
  exact formatBody_length_pos a ha

theorem getFallbackAnswer_length_pos (query cat : String) :
    0 < (getFallbackAnswer query cat).length := by
  unfold getFallbackAnswer fallbackResponses
  simp only [dictLookup]
  repeat' split
  all_goals decide

theorem dbUnavailableMsg_length_pos (cat : String) : 0 < (dbUnavailableMsg cat).length := by
  unfold dbUnavailableMsg
  apply append_length_pos_left
  apply append_length_pos_left
  decide

theorem dictLookup_dictSet_self {α : Type} (d : List (String × α)) (k : String) (v : α) :
    dictLookup (dictSet d k v) k = some v := by
  induction d with
  | nil => simp [dictSet, dictLookup]
  | cons p rest ih =>
    obtain ⟨k1, v1⟩ := p
    by_cases h : k1 = k
    · simp [dictSet, dictLookup, h]
    · simp [dictSet, dictLookup, h, ih]

theorem dictLookup_dictSet_ne {α : Type} (d : List (String × α)) (k k' : String)
    (v : α) (h : k' ≠ k) : dictLookup (dictSet d k' v) k = dictLookup d k := by
  induction d with
  | nil => simp [dictSet, dictLookup, h]
  | cons p rest ih =>
    obtain ⟨k1, v1⟩ := p
    by_cases h1 : k1 = k'
    · subst h1
      simp [dictSet, dictLookup, h]
    · simp [dictSet, dictLookup, h1, ih]

theorem dictLookup_map_none {α : Type} :
    ∀ (l : List String) (c : String), c ∉ l →
      dictLookup (l.map (fun k => (k, (none : Option α)))) c = none := by
  intro l
  induction l with
  | nil => intro c _; rfl
  | cons a rest ih =>
    intro c hc
    have ha : a ≠ c := fun he => hc (he ▸ List.mem_cons_self a rest)
    simp only [List.map_cons, dictLookup, ha, if_false]
    exact ih c (fun hm => hc (List.mem_cons_of_mem _ hm))

theorem foldl_initStep_lookup_of_not_mem {Store : Type} (env : String → CatEnv Store) :
    ∀ (cats : List String)
      (acc : List (String × Option Store) × List (String × Option Chain))
      (c : String), c ∉ cats →
      dictLookup (cats.foldl (initStep env) acc).1 c = dictLookup acc.1 c ∧
      dictLookup (cats.foldl (initStep env) acc).2 c = dictLookup acc.2 c := by
  intro cats
  induction cats with
  | nil => intro acc c _; exact ⟨rfl, rfl⟩
  | cons a rest ih =>
    intro acc c h
    have hne : a ≠ c := fun he => h (he ▸ List.mem_cons_self a rest)
    have hrest : c ∉ rest := fun hm => h (List.mem_cons_of_mem _ hm)
    rw [List.foldl_cons]
    obtain ⟨h1, h2⟩ := ih (initStep env acc a) c hrest
    refine ⟨?_, ?_⟩
    · rw [h1]
      exact dictLookup_dictSet_ne _ _ _ _ hne
    · rw [h2]
      exact dictLookup_dictSet_ne _ _ _ _ hne

theorem foldl_initStep_lookup_of_mem {Store : Type} (env : String → CatEnv Store) :
    ∀ (cats : List String)
      (acc : List (String × Option Store) × List (String × Option Chain))
      (c : String), cats.Nodup → c ∈ cats →
      dictLookup (cats.foldl (initStep env) acc).1 c = some (initCategory (env c)).1 ∧
      dictLookup (cats.foldl (initStep env) acc).2 c = some (initCategory (env c)).2 := by
  intro cats
  induction cats with
  | nil => intro acc c _ hc; exact absurd hc (List.not_mem_nil c)
  | cons a rest ih =>
    intro acc c hnd hc
    obtain ⟨hna, hndrest⟩ := List.nodup_cons.mp hnd
    rw [List.foldl_cons]
    rcases List.mem_cons.mp hc with rfl | hm
    · obtain ⟨h1, h2⟩ := foldl_initStep_lookup_of_not_mem env rest (initStep env acc c) c hna
      rw [h1, h2]
      exact ⟨dictLookup_dictSet_self _ _ _, dictLookup_dictSet_self _ _ _⟩
    · exact ih (initStep env acc a) c hndrest hm

theorem mkBot_lookup_of_mem {Store : Type} (env : String → CatEnv Store)
    (c : String) (hc : c ∈ categories) :
    dictLookup (mkBot env).databases c = some (initCategory (env c)).1 ∧
    dictLookup (mkBot env).qaChains c = some (initCategory (env c)).2 :=
  foldl_initStep_lookup_of_mem env categories _ c (by decide) hc

theorem mkBot_lookup_of_not_mem {Store : Type} (env : String → CatEnv Store)
    (c : String) (hc : c ∉ categories) :
    dictLookup (mkBot env).databases c = none := by
  have h := (foldl_initStep_lookup_of_not_mem env categories
    (categories.map (fun c => (c, none)), []) c hc).1
  have h2 := dictLookup_map_none (α := Store) categories c hc
  exact h.trans h2

theorem initCategory_chain_some {Store : Type} (e : CatEnv Store) (ch : Chain)
    (h : (initCategory e).2 = some ch) : ∃ st, (initCategory e).1 = some st := by
  obtain ⟨pe, ls, gd, li, lp, bc⟩ := e
  cases pe with
  | false => simp [initCategory] at h
  | true =>
    cases ls with
    | error e1 => simp [initCategory] at h
    | ok store =>
      cases gd with
      | error e2 => simp [initCategory] at h
      | ok n =>
        by_cases hn : 0 < n
        · exact ⟨store, by simp [initCategory, hn]⟩
        · simp [initCategory, hn] at h

theorem isNone_false_of_dictGet_some {α : Type} (d : List (String × Option α))
    (k : String) (v : α) (h : dictGet d k = some v) :
    (dictLookup d k).isNone = false := by
  unfold dictGet at h
  rcases hl : dictLookup d k with _ | w
  · rw [hl] at h
    exact absurd h (by simp)
  · rfl

/-! ## Concrete states used by witnesses and counterexamples -/

/-- Environment in which no category directory exists: every store slot ends
up `None` (Unavailable). -/
def envAllMissing : String → CatEnv Unit :=
  fun _ => ⟨false, Except.error "directory not found", Except.error "no store",
    Except.ok (), Except.ok (), Except.error "no chain"⟩

/-- A chain that raises on every invocation. -/
def failingChain : Chain := fun _ => Except.error "boom"

/-- A chain that returns a fixed result on every invocation. -/
def okChain (r : ChainResult) : Chain := fun _ => Except.ok r

/-- A state in which the faq category is Ready with the given chain. -/
def faqReadyBot (ch : Chain) : BotState Unit :=
  ⟨[("faq", some ())], [("faq", some ch)]⟩

/-- Environment in which every category loads, has documents and gets a
working chain (all Ready). -/
def envAllReady : String → CatEnv Unit :=
  fun _ => ⟨true, Except.ok (), Except.ok 3, Except.ok (), Except.ok (),
    Except.ok (okChain ⟨some "ok", []⟩)⟩

/-- An orchestrator state with empty dicts (only used where the dicts are
irrelevant). -/
def emptyBot : BotState Unit := ⟨[], []⟩

/-! ## Claim theorems -/

/-- C1: for every state, query and category, `chat` returns a record whose
`answer` is a non-empty string and whose `sources` is an ordered list of
strings.  The function is a total Lean function, which embeds the guarantee
that `chat` never raises: every internal failure path is a value, not an
exception. -/
theorem chat_output_contract {Store : Type} (bot : BotState Store) (query : String)
    (category : Option String) :
    0 < (chat bot query category).answer.length ∧
    ∃ l : List String, (chat bot query category).sources = l := by
  refine ⟨?_, _, rfl⟩
  cases category with
  | none =>
    show 0 < guidanceMsg.length
    decide
  | some cat =>
    simp only [chat]
    split
    · show 0 < guidanceMsg.length
      decide
    · split
      · exact dbUnavailableMsg_length_pos cat
      · split
        · exact getFallbackAnswer_length_pos query cat
        · split
          · exact getFallbackAnswer_length_pos query cat
          · split
            · exact getFallbackAnswer_length_pos query cat
            · rename_i hlow
              apply formatResponse_length_pos
              intro heq
              exact hlow (by rw [heq]; decide)

/-- C2 (code bug): the uncertainty check compares the mixed-case literals
against the lowercased answer, so it never fires; for a Ready category whose
chain answers a text containing the phrase "I cannot", `chat` returns the raw
text, not the canned fallback the spec requires. -/
theorem chat_uncertainty_phrase_returned_raw :
    chat (faqReadyBot (okChain ⟨some "I cannot answer that", []⟩)) "q" (some "faq") =
      ⟨"I cannot answer that", []⟩ ∧
    (("I cannot answer that" : String) == getFallbackAnswer "q" "faq") = false := by
  refine ⟨by decide, by decide⟩

/-- C3 (amended): a category whose store is loaded but whose chain is missing
(Degraded) gets the canned category fallback with empty sources; a category
whose store failed to load (Unavailable) gets the fixed
"Database not available" message with empty sources.  Neither path invokes the
chain (the conclusion does not depend on any chain in the state). -/
theorem chat_unavailable_and_degraded_responses {Store : Type} (bot : BotState Store)
    (query cat : String) (hcat : cat ≠ "") :
    (dictLookup bot.databases cat ≠ none → dictGet bot.databases cat = none →
      chat bot query (some cat) = ⟨dbUnavailableMsg cat, []⟩) ∧
    (∀ st : Store, dictGet bot.databases cat = some st →
      dictGet bot.qaChains cat = none →
      chat bot query (some cat) = ⟨getFallbackAnswer query cat, []⟩) := by
  have hbeq : (cat == "") = false := beq_eq_false_iff_ne.mpr hcat
  constructor
  · intro hkey hdb
    have hkey2 : (dictLookup bot.databases cat).isNone = false := by
      rcases hl : dictLookup bot.databases cat with _ | v
      · exact absurd hl hkey
      · rfl
    simp [chat, hbeq, hkey2, hdb]
  · intro st hdb hch
    have hkey2 := isNone_false_of_dictGet_some bot.databases cat st hdb
    simp [chat, hbeq, hkey2, hdb, hch]

/-- C3 (witness): the amended theorem applied to the all-missing startup
state at category faq. -/
theorem chat_unavailable_and_degraded_responses_witness :
    ("faq" : String) ≠ "" ∧
    chat (mkBot envAllMissing) "q" (some "faq") = ⟨dbUnavailableMsg "faq", []⟩ :=
  ⟨by decide,
   (chat_unavailable_and_degraded_responses (mkBot envAllMissing) "q" "faq"
     (by decide)).1 (by decide) (by decide)⟩

/-- C3 (counterexample): with faq Unavailable, `chat` returns the
"Database not available" message, which differs from the faq canned fallback
string that the claim promises. -/
theorem chat_unavailable_not_canned_fallback :
    chat (mkBot envAllMissing) "How do I file a complaint?" (some "faq") =
      ⟨dbUnavailableMsg "faq", []⟩ ∧
    (dbUnavailableMsg "faq" ==
      getFallbackAnswer "How do I file a complaint?" "faq") = false := by
  refine ⟨by decide, by decide⟩

/-- C4 (amended): the empty-query guard lives in the `predict` endpoint, not
in `chat`: when the message is empty or whitespace-only after trimming,
`predict` returns the guidance response before `chat` is ever consulted (the
conclusion is the same for every orchestrator state). -/
theorem predict_empty_message_guard {Store : Type} (bot : BotState Store)
    (d : ReqData) (h : pyStrip (d.message.getD "") = "") :
    predict bot (some d) =
      ⟨some "Empty message", "Please provide a question or message.", none⟩ := by
  simp [predict, h]

/-- C4 (witness): the amended theorem applied to a whitespace-only message. -/
theorem predict_empty_message_guard_witness :
    pyStrip ((some "   " : Option String).getD "") = "" ∧
    predict emptyBot (some ⟨some "   ", some "faq"⟩) =
      ⟨some "Empty message", "Please provide a question or message.", none⟩ :=
  ⟨by decide,
   predict_empty_message_guard emptyBot ⟨some "   ", some "faq"⟩ (by decide)⟩

/-- C4 (counterexample): `chat` itself has no query check: a whitespace-only
query on a Ready category reaches the chain and its generated answer is
returned, which is neither the endpoint guidance message nor the category
guidance message. -/
theorem chat_whitespace_query_reaches_pipeline :
    chat (faqReadyBot (okChain ⟨some "Hello there", []⟩)) "   " (some "faq") =
      ⟨"Hello there", []⟩ ∧
    (("Hello there" : String) == "Please provide a question or message.") = false ∧
    (("Hello there" : String) == guidanceMsg) = false := by
  refine ⟨by decide, by decide, by decide⟩

/-- C5: for a Ready category (store present, chain present), if the chain
raises on the formatted query then `chat` returns exactly the canned
fallback string of the category with empty sources. -/
theorem chat_ready_chain_exception {Store : Type} (bot : BotState Store)
    (query cat : String) (st : Store) (ch : Chain)
    (hcat : cat ≠ "")
    (hdb : dictGet bot.databases cat = some st)
    (hch : dictGet bot.qaChains cat = some ch)
    (herr : ∃ e, ch (mkFormattedQuery cat query) = Except.error e) :
    chat bot query (some cat) = ⟨getFallbackAnswer query cat, []⟩ := by
  obtain ⟨e, he⟩ := herr
  have hbeq : (cat == "") = false := beq_eq_false_iff_ne.mpr hcat
  have hkey2 := isNone_false_of_dictGet_some bot.databases cat st hdb
  simp [chat, hbeq, hkey2, hdb, hch, he]

/-- C5 (witness): the theorem applied to a Ready faq state whose chain
raises. -/
theorem chat_ready_chain_exception_witness :
    dictGet (faqReadyBot failingChain).qaChains "faq" = some failingChain ∧
    chat (faqReadyBot failingChain) "q" (some "faq") =
      ⟨getFallbackAnswer "q" "faq", []⟩ :=
  ⟨rfl,
   chat_ready_chain_exception (faqReadyBot failingChain) "q" "faq" () failingChain
     (by decide) rfl rfl ⟨"boom", rfl⟩⟩

/-- C6 (counterexample): the URL regex stops at whitespace, so for the input
of the claim no anchor with the percent-encoded href
"https://example.com/a%20b" appears anywhere in the output. -/
theorem formatResponse_no_encoded_space_href :
    strContains (formatResponse (some "Visit https://example.com/a b for info"))
      "https://example.com/a%20b" = false := by
  decide

/-- C6 (amended): the detected URL is the maximal whitespace-free run
"https://example.com/a"; the href and visible text of the output anchor are both
that string, and " b for info" stays plain text after the anchor. -/
theorem formatResponse_url_stops_at_space :
    formatResponse (some "Visit https://example.com/a b for info") =
      "Visit <a href=\"https://example.com/a\" target=\"_blank\" rel=\"noopener noreferrer\" style=\"color: #1a3e8c; text-decoration: underline; font-weight: 600;\">https://example.com/a</a> b for info" := by
  decide

/-- C7 (counterexample): the post-processor is not idempotent: applying it a
second time to its own output changes the text. -/
theorem formatResponse_not_idempotent :
    (formatResponse (some (formatResponse (some "However, x"))) ==
      formatResponse (some "However, x")) = false := by
  decide

/-- C7 (amended): re-running the post-processor on already-formatted text
inserts an additional paragraph break before a connective word that already
has one, because the replacement scans the connective again. -/
theorem formatResponse_double_inserts_breaks :
    formatResponse (some "However, x") = "<br><br>However, x" ∧
    formatResponse (some (formatResponse (some "However, x"))) =
      "<br><br><br><br>However, x" := by
  refine ⟨by decide, by decide⟩

/-- C8: for a missing category or any category outside the registry of the
initialized state, `chat` returns the guidance answer asking to select a
valid category, with empty sources. -/
theorem chat_invalid_category_guidance {Store : Type} (env : String → CatEnv Store)
    (query : String) (category : Option String)
    (hc : category = none ∨ ∃ s, category = some s ∧ s ∉ categories) :
    chat (mkBot env) query category = ⟨guidanceMsg, []⟩ := by
  rcases hc with rfl | ⟨s, rfl, hs⟩
  · rfl
  · have h := mkBot_lookup_of_not_mem env s hs
    simp [chat, h]

/-- C8 (witness): the theorem applied to a category outside the registry. -/
theorem chat_invalid_category_guidance_witness :
    ((some "general" : Option String) = none ∨
      ∃ s, (some "general" : Option String) = some s ∧ s ∉ categories) ∧
    chat (mkBot envAllMissing) "hello" (some "general") = ⟨guidanceMsg, []⟩ :=
  ⟨Or.inr ⟨"general", rfl, by decide⟩,
   chat_invalid_category_guidance envAllMissing "hello" (some "general")
     (Or.inr ⟨"general", rfl, by decide⟩)⟩

/-- C9: an empty or null input answer makes the post-processor return the
fixed non-empty "no answer" message, not an empty string. -/
theorem formatResponse_empty_or_null_input :
    formatResponse none = "No answer generated. Please try again." ∧
    formatResponse (some "") = "No answer generated. Please try again." := by
  refine ⟨rfl, by decide⟩

/-- C10: after startup initialization, every registry category has an entry
in both the store dict and the chain dict, and a category with a live chain
always has a loaded store. -/
theorem init_availability_invariant {Store : Type} (env : String → CatEnv Store)
    (c : String) (hc : c ∈ categories) :
    (dictLookup (mkBot env).databases c).isSome = true ∧
    (dictLookup (mkBot env).qaChains c).isSome = true ∧
    (∀ ch : Chain, dictLookup (mkBot env).qaChains c = some (some ch) →
      ∃ st : Store, dictLookup (mkBot env).databases c = some (some st)) := by
  obtain ⟨h1, h2⟩ := mkBot_lookup_of_mem env c hc
  refine ⟨by rw [h1]; rfl, by rw [h2]; rfl, ?_⟩
  intro ch hch
  rw [h2] at hch
  injection hch with hch
  obtain ⟨st, hst⟩ := initCategory_chain_some (env c) ch hch
  exact ⟨st, by rw [h1, hst]⟩

/-- C10 (witness): the invariant applied to the all-Ready startup state at
category faq. -/
theorem init_availability_invariant_witness :
    ("faq" ∈ categories) ∧
    ((dictLookup (mkBot envAllReady).databases "faq").isSome = true ∧
     (dictLookup (mkBot envAllReady).qaChains "faq").isSome = true ∧
     (∀ ch : Chain, dictLookup (mkBot envAllReady).qaChains "faq" = some (some ch) →
       ∃ st : Unit, dictLookup (mkBot envAllReady).databases "faq" = some (some st))) :=
  ⟨by decide, init_availability_invariant envAllReady "faq" (by decide)⟩

end MqaChat


